import Mathlib

set_option maxRecDepth 8000000
set_option maxHeartbeats 2000000

/-!
# Verification of the paynow-mbank-lib payment-gateway client

A shallow embedding, in Lean 4, of the signature engine of the library
(`src/utils/signatureCalculator.ts`) and gateway client
(`src/client/paymentClient.ts`), together with proofs of the specified
properties.

Bytes are modelled as `Nat` (each `< 256`), 32-bit words as `Nat` with an
explicit `% 2 ^ 32` where overflow matters.  All definitions are executable so
that claims can be settled on concrete inputs by kernel evaluation.

The Node.js calls into the crypto module (createHmac with sha256, digest
with base64) are external primitives of the source; they are embedded as a full, faithful
implementation of HMAC-SHA256 (FIPS 180-4 / FIPS 198-1) and of standard
Base64, so that nothing of interest is stubbed.
-/

namespace Paynow

/-! ## UTF-8 encoding of strings -/

/-- UTF-8 encoding of a single Unicode code point. -/
def utf8EncodeCodePoint (c : Nat) : List Nat :=
  if c < 0x80 then [c]
  else if c < 0x800 then
    [0xC0 ||| (c >>> 6), 0x80 ||| (c &&& 0x3F)]
  else if c < 0x10000 then
    [0xE0 ||| (c >>> 12), 0x80 ||| ((c >>> 6) &&& 0x3F), 0x80 ||| (c &&& 0x3F)]
  else
    [0xF0 ||| (c >>> 18), 0x80 ||| ((c >>> 12) &&& 0x3F),
     0x80 ||| ((c >>> 6) &&& 0x3F), 0x80 ||| (c &&& 0x3F)]

/-- The UTF-8 bytes of a string (the utf8 encoding that `hmac.update`
applies in the source). -/
def strBytes (s : String) : List Nat :=
  (s.data.map (fun c => utf8EncodeCodePoint c.toNat)).flatten

/-! ## SHA-256 (FIPS 180-4) -/

/-- Addition of 32-bit words, wrapping modulo `2 ^ 32`. -/
def add32 (a b : Nat) : Nat := (a + b) % 4294967296

/-- Right rotation of a 32-bit word by `n` bits. -/
def rotr32 (n x : Nat) : Nat := ((x >>> n) ||| (x <<< (32 - n))) % 4294967296

/-- The 64 SHA-256 round constants. -/
def sha256K : List Nat :=
  [1116352408, 1899447441, 3049323471, 3921009573, 961987163, 1508970993,
   2453635748, 2870763221, 3624381080, 310598401, 607225278, 1426881987,
   1925078388, 2162078206, 2614888103, 3248222580, 3835390401, 4022224774,
   264347078, 604807628, 770255983, 1249150122, 1555081692, 1996064986,
   2554220882, 2821834349, 2952996808, 3210313671, 3336571891, 3584528711,
   113926993, 338241895, 666307205, 773529912, 1294757372, 1396182291,
   1695183700, 1986661051, 2177026350, 2456956037, 2730485921, 2820302411,
   3259730800, 3345764771, 3516065817, 3600352804, 4094571909, 275423344,
   430227734, 506948616, 659060556, 883997877, 958139571, 1322822218,
   1537002063, 1747873779, 1955562222, 2024104815, 2227730452, 2361852424,
   2428436474, 2756734187, 3204031479, 3329325298]

/-- The SHA-256 initial hash state. -/
def sha256Init : List Nat :=
  [1779033703, 3144134277, 1013904242, 2773480762,
   1359893119, 2600822924, 528734635, 1541459225]

/-- Function `σ₀` of the message schedule. -/
def ssig0 (x : Nat) : Nat := (rotr32 7 x) ^^^ (rotr32 18 x) ^^^ (x >>> 3)

/-- Function `σ₁` of the message schedule. -/
def ssig1 (x : Nat) : Nat := (rotr32 17 x) ^^^ (rotr32 19 x) ^^^ (x >>> 10)

/-- Function `Σ₀` of the compression function. -/
def bsig0 (x : Nat) : Nat := (rotr32 2 x) ^^^ (rotr32 13 x) ^^^ (rotr32 22 x)

/-- Function `Σ₁` of the compression function. -/
def bsig1 (x : Nat) : Nat := (rotr32 6 x) ^^^ (rotr32 11 x) ^^^ (rotr32 25 x)

/-- Big-endian deserialization of bytes into 32-bit words. -/
def bytesToWordsBE : List Nat → List Nat
  | b0 :: b1 :: b2 :: b3 :: rest =>
      ((((b0 <<< 8) ||| b1) <<< 8 ||| b2) <<< 8 ||| b3) :: bytesToWordsBE rest
  | _ => []

/-- Big-endian serialization of a 32-bit word into four bytes. -/
def wordToBytesBE (w : Nat) : List Nat :=
  [(w >>> 24) % 256, (w >>> 16) % 256, (w >>> 8) % 256, w % 256]

/-- SHA-256 padding: append `0x80`, zero bytes, and the 64-bit big-endian bit
length, reaching a multiple of 64 bytes. -/
def sha256Pad (msg : List Nat) : List Nat :=
  let len := msg.length
  let bitLen := len * 8
  let zeros := (119 - len % 64) % 64
  msg ++ [0x80] ++ List.replicate zeros 0 ++
    [(bitLen >>> 56) % 256, (bitLen >>> 48) % 256, (bitLen >>> 40) % 256,
     (bitLen >>> 32) % 256, (bitLen >>> 24) % 256, (bitLen >>> 16) % 256,
     (bitLen >>> 8) % 256, bitLen % 256]

/-- Split a byte list into 64-byte blocks, with structural fuel (one unit per
block; `l.length` is always enough). -/
def chunks64Fuel : Nat → List Nat → List (List Nat)
  | 0, _ => []
  | _, [] => []
  | fuel + 1, c :: cs => (c :: cs).take 64 :: chunks64Fuel fuel ((c :: cs).drop 64)

/-- Split a byte list into 64-byte blocks. -/
def chunks64 (l : List Nat) : List (List Nat) := chunks64Fuel l.length l

/-- Iterate a function `n` times. -/
def iterate (f : α → α) : Nat → α → α
  | 0, a => a
  | n + 1, a => iterate f n (f a)

/-- One step of message-schedule extension: append word
`w[t] = σ₁(w[t-2]) + w[t-7] + σ₀(w[t-15]) + w[t-16]`. -/
def scheduleStep (w : List Nat) : List Nat :=
  let n := w.length
  w ++ [add32 (add32 (ssig1 (w.getD (n - 2) 0)) (w.getD (n - 7) 0))
              (add32 (ssig0 (w.getD (n - 15) 0)) (w.getD (n - 16) 0))]

/-- The 64-word message schedule of one block. -/
def schedule (block : List Nat) : List Nat :=
  iterate scheduleStep 48 (bytesToWordsBE block)

/-- One round of the SHA-256 compression function on the 8-word state. -/
def compressStep (st : List Nat) (kw : Nat × Nat) : List Nat :=
  match st with
  | [a, b, c, d, e, f, g, h] =>
      let ch := (e &&& f) ^^^ ((e ^^^ 0xFFFFFFFF) &&& g)
      let t1 := add32 h (add32 (bsig1 e) (add32 ch (add32 kw.1 kw.2)))
      let maj := (a &&& b) ^^^ (a &&& c) ^^^ (b &&& c)
      let t2 := add32 (bsig0 a) maj
      [add32 t1 t2, a, b, c, add32 d t1, e, f, g]
  | other => other

/-- Compress one 64-byte block into the running hash state. -/
def compressBlock (h : List Nat) (block : List Nat) : List Nat :=
  let st := ((sha256K.zip (schedule block)).foldl compressStep h)
  (h.zip st).map (fun p => add32 p.1 p.2)

/-- SHA-256 of a byte list, as 32 bytes. -/
def sha256 (msg : List Nat) : List Nat :=
  (((chunks64 (sha256Pad msg)).foldl compressBlock sha256Init).map
    wordToBytesBE).flatten

/-! ## HMAC-SHA256 (FIPS 198-1) -/

/-- HMAC-SHA256 of `msg` under `key`, as 32 bytes. -/
def hmacSha256 (key msg : List Nat) : List Nat :=
  let k0 := if key.length > 64 then sha256 key else key
  let kp := k0 ++ List.replicate (64 - k0.length) 0
  let ipad := kp.map (fun b => b ^^^ 0x36)
  let opad := kp.map (fun b => b ^^^ 0x5C)
  sha256 (opad ++ sha256 (ipad ++ msg))

/-! ## Base64 -/

/-- The standard Base64 alphabet. -/
def base64Chars : List Char :=
  "ABCDEFGHIJKLMNOPQRSTUVWXYZabcdefghijklmnopqrstuvwxyz0123456789+/".data

/-- The Base64 digit for a 6-bit group. -/
def b64Digit (n : Nat) : Char := base64Chars.getD n 'A'

/-- Standard Base64 encoding of a byte list, with `=` padding (the base64
digest encoding of the source). -/
def base64Encode : List Nat → String
  | [] => ""
  | [b0] =>
      String.mk [b64Digit (b0 >>> 2), b64Digit ((b0 <<< 4) &&& 63)] ++ "=="
  | [b0, b1] =>
      String.mk [b64Digit (b0 >>> 2), b64Digit (((b0 <<< 4) ||| (b1 >>> 4)) &&& 63),
                 b64Digit ((b1 <<< 2) &&& 63)] ++ "="
  | b0 :: b1 :: b2 :: rest =>
      String.mk [b64Digit (b0 >>> 2), b64Digit (((b0 <<< 4) ||| (b1 >>> 4)) &&& 63),
                 b64Digit (((b1 <<< 2) ||| (b2 >>> 6)) &&& 63), b64Digit (b2 &&& 63)] ++
      base64Encode rest

/-! ## Lexicographic key order, kernel-computable

The call `Object.keys(..).sort()` sorts with the default JavaScript
comparator: ascending lexicographic comparison of the **UTF-16 code units**
of the strings.  The embedding therefore encodes each key into its UTF-16
code units and compares unit lists lexicographically.  The canonical order
the spec prescribes — case-sensitive byte order of the UTF-8 encodings,
equivalently ascending code-point order — is embedded separately for the
spec-side definitions.  The two orders agree on strings of basic-plane
characters and genuinely differ on astral-plane keys (a surrogate unit in
55296–57343 sorts below the basic-plane units 57344–65535). -/

/-- Lexicographic strict order on lists of naturals. -/
def lexLtB : List Nat → List Nat → Bool
  | _, [] => false
  | [], _ :: _ => true
  | a :: as, b :: bs => if a = b then lexLtB as bs else decide (a < b)

/-- The UTF-16 code units of one character: a basic-plane character is one
unit, an astral-plane character a high/low surrogate pair. -/
def utf16EncodeChar (c : Char) : List Nat :=
  if c.toNat < 65536 then [c.toNat]
  else [55296 + (c.toNat - 65536) / 1024, 56320 + (c.toNat - 65536) % 1024]

/-- The UTF-16 code units of a string. -/
def utf16Units (s : String) : List Nat := (s.data.map utf16EncodeChar).flatten

/-- The code points of a string. -/
def cpUnits (s : String) : List Nat := s.data.map Char.toNat

/-- The strict comparison of the default JavaScript string sort: by UTF-16
code units. -/
def strLtB (a b : String) : Bool := lexLtB (utf16Units a) (utf16Units b)

/-- Non-strict UTF-16 comparison, as the negation of the reverse strict
order. -/
def strLeB (a b : String) : Bool := !(strLtB b a)

/-- The sorting relation of `Object.keys(..).sort()`, as a decidable
proposition. -/
def keyLe (a b : String) : Prop := strLeB a b = true

instance : DecidableRel keyLe := fun a b => instDecidableEqBool _ _

/-- Modelled from the spec: the canonical key order — lexicographic,
case-sensitive byte order on the UTF-8 encodings, which is exactly ascending
code-point order. -/
def specKeyLe (a b : String) : Prop := (!(lexLtB (cpUnits b) (cpUnits a))) = true

instance : DecidableRel specKeyLe := fun a b => instDecidableEqBool _ _

/-- Embedding of `Object.keys(..).sort()`: the keys in ascending UTF-16
code-unit order. -/
def sortStrings (ks : List String) : List String := List.insertionSort keyLe ks

/-- Modelled from the spec: the keys in ascending byte (code-point) order. -/
def specSortStrings (ks : List String) : List String :=
  List.insertionSort specKeyLe ks

/-- Whether every character of `s` lies in the basic multilingual plane; on
such keys the UTF-16 order of the program and the byte order of the spec
coincide. -/
def bmpOnly (s : String) : Bool := s.data.all (fun c => decide (c.toNat < 65536))

/-! ## JSON serialization (the fragment `JSON.stringify` needs here)

The canonical signing payload contains only string values, so the embedding
covers `JSON.stringify` on objects whose leaves are strings.  Two pieces of
JavaScript semantics matter:

* string escaping (ECMA-262 `QuoteJSONString`);
* own-property key order (ECMA-262 `OrdinaryOwnPropertyKeys`): keys that are
  canonical array indices (the decimal form of some `n < 2^32 - 1`) are
  enumerated first, in ascending **numeric** order, and only the remaining
  keys follow in insertion order. -/

/-- A lowercase hexadecimal digit. -/
def hexDigitChar (n : Nat) : Char := "0123456789abcdef".data.getD n '0'

/-- The QuoteJSONString escaping of one character: `"` and `\` get a backslash,
the named control escapes are used for 0x08–0x0D (except 0x0B), the remaining
control characters become `\u00xx`, and everything else is copied. -/
def jsonEscapeChar (c : Char) : List Char :=
  if c = '"' then ['\\', '"']
  else if c = '\\' then ['\\', '\\']
  else if c.toNat = 8 then ['\\', 'b']
  else if c.toNat = 9 then ['\\', 't']
  else if c.toNat = 10 then ['\\', 'n']
  else if c.toNat = 12 then ['\\', 'f']
  else if c.toNat = 13 then ['\\', 'r']
  else if c.toNat < 32 then
    ['\\', 'u', '0', '0', hexDigitChar (c.toNat / 16), hexDigitChar (c.toNat % 16)]
  else [c]

/-- A JSON string literal for `s`, quotes included. -/
def jsonQuote (s : String) : String :=
  "\"" ++ String.mk (s.data.map jsonEscapeChar).flatten ++ "\""

/-- Whether `c` is an ASCII decimal digit. -/
def isDigitChar (c : Char) : Bool := decide (48 ≤ c.toNat) && decide (c.toNat ≤ 57)

/-- The numeric value of a nonempty all-digit string, `none` otherwise
(the semantics of `String.toNat?`, restated structurally). -/
def strToNat? (s : String) : Option Nat :=
  if s.data ≠ [] ∧ s.data.all isDigitChar = true then
    some (s.data.foldl (fun a c => a * 10 + (c.toNat - 48)) 0)
  else none

/-- Whether `s` is a canonical array-index property key: the decimal
representation of some `n < 2^32 - 1`, with no leading zeros. -/
def isArrayIndexKey (s : String) : Bool :=
  match strToNat? s with
  | some n => decide (n < 4294967295) && (Nat.repr n == s)
  | none => false

/-- Numeric comparison of array-index keys. -/
def numLe (a b : String) : Prop := (strToNat? a).getD 0 ≤ (strToNat? b).getD 0

instance : DecidableRel numLe := fun a b => Nat.decLe _ _

/-- Embedding of OrdinaryOwnPropertyKeys: array-index keys first in ascending numeric
order, then the remaining keys in insertion order. -/
def jsOwnKeyOrder (ks : List String) : List String :=
  List.insertionSort numLe (ks.filter isArrayIndexKey) ++
    ks.filter (fun k => !isArrayIndexKey k)

/-- Member access `m[k]` for an object modelled as an association list in insertion
order. -/
def lookupD (m : List (String × String)) (k : String) : String :=
  (List.lookup k m).getD ""

/-- The object built by
`Object.keys(m).sort().forEach(key => sorted[key] = m[key])`, as an
association list in insertion order. -/
def sortedPairs (m : List (String × String)) : List (String × String) :=
  (sortStrings (m.map Prod.fst)).map (fun k => (k, lookupD m k))

/-- Serialize string-valued entries in exactly the given order, with no
whitespace. -/
def stringifyStrEntries (entries : List (String × String)) : String :=
  "\x7b" ++
    String.intercalate "," (entries.map (fun p => jsonQuote p.1 ++ ":" ++ jsonQuote p.2)) ++
    "\x7d"

/-- Embedding of `JSON.stringify` on a string-valued object given as an association list
in insertion order: entries are emitted in own-property key order. -/
def stringifyRecord (m : List (String × String)) : String :=
  stringifyStrEntries ((jsOwnKeyOrder (m.map Prod.fst)).map (fun k => (k, lookupD m k)))

namespace SignatureCalculator

/-- Serialization `JSON.stringify(payload)` for
`payload = {headers: sortedHeaders, parameters: sortedParameters, body}`:
the three top-level keys keep insertion order (none is an array index). -/
def payloadString (sortedHeaders sortedParameters : List (String × String))
    (body : String) : String :=
  "\x7b\"headers\":" ++ stringifyRecord sortedHeaders ++
    ",\"parameters\":" ++ stringifyRecord sortedParameters ++
    ",\"body\":" ++ jsonQuote body ++ "\x7d"

/-- Embedding of `SignatureCalculator.calculateSignature` on headers,
parameters and body (the
three-argument variant): sort the header and parameter keys, build the
payload object, `JSON.stringify` it, and return the Base64 HMAC-SHA256 of
its UTF-8 bytes under the signature key. -/
def calculateSignature (signatureKey : String)
    (headers parameters : List (String × String)) (body : String) : String :=
  base64Encode (hmacSha256 (strBytes signatureKey)
    (strBytes (payloadString (sortedPairs headers) (sortedPairs parameters) body)))

/-- Embedding of `SignatureCalculator.calculateSignatureSimple` (identical to the
single-argument `calculateSignature` of the older variant): Base64 HMAC-SHA256
of the raw data, with no wrapping structure. -/
def calculateSignatureSimple (signatureKey data : String) : String :=
  base64Encode (hmacSha256 (strBytes signatureKey) (strBytes data))

/-- Embedding of `SignatureCalculator.verifySignature`: recompute
the simple signature of `data` and compare to `receivedSignature` with exact
string equality (`===`). -/
def verifySignature (signatureKey receivedSignature data : String) : Bool :=
  calculateSignatureSimple signatureKey data == receivedSignature

end SignatureCalculator

/-- Modelled from the spec: the header/parameter map with its entries in
ascending byte order of the keys. -/
def specSortedPairs (m : List (String × String)) : List (String × String) :=
  (specSortStrings (m.map Prod.fst)).map (fun k => (k, lookupD m k))

/-- Modelled from the spec: the canonical signing payload exactly as the spec
words it — the JSON object `{headers: sortedHeaders, parameters:
sortedParameters, body: body}` with the header keys and parameter keys in
ascending lexicographic case-sensitive byte order and *exactly that key
order* in the serialization, no extra whitespace. -/
def specCanonicalPayload (headers parameters : List (String × String))
    (body : String) : String :=
  "\x7b\"headers\":" ++ stringifyStrEntries (specSortedPairs headers) ++
    ",\"parameters\":" ++ stringifyStrEntries (specSortedPairs parameters) ++
    ",\"body\":" ++ jsonQuote body ++ "\x7d"

/-- Modelled from the spec: `computeApiSignature` as the spec describes it —
HMAC-SHA256 over the UTF-8 bytes of the lexicographically-ordered canonical
payload, Base64-encoded. -/
def specApiSignature (signatureKey : String)
    (headers parameters : List (String × String)) (body : String) : String :=
  base64Encode (hmacSha256 (strBytes signatureKey)
    (strBytes (specCanonicalPayload headers parameters body)))

/-- A one-character key outside the basic plane (U+10000); its UTF-16
encoding is the surrogate pair 55296, 56320, so JavaScript sorts it *below*
U+E000 although its code point (and UTF-8 encoding) is larger. -/
def astralKey : String := String.mk [Char.ofNat 65536]

/-- A one-character basic-plane key (U+E000) whose single code unit 57344
exceeds every surrogate unit. -/
def privateUseKey : String := String.mk [Char.ofNat 57344]

/-! ## A JSON value model and a `JSON.parse` embedding

`parseNotification` calls `JSON.parse` and casts the result, so settling its
claims needs a faithful success/failure model of `JSON.parse` (ECMA-404
grammar: the four JSON whitespace characters, objects, arrays, strings with
the JSON escapes, numbers, `true`/`false`/`null`).  Decoded strings are kept
as lists of code units so that `\uXXXX` escapes (lone surrogates included)
need no validity side condition. -/

/-- A parsed JSON value.  Numeric values keep their raw lexeme: the claims
under verification depend only on parse success or failure. -/
inductive Json where
  | null : Json
  | bool : Bool → Json
  | num : String → Json
  | str : List Nat → Json
  | arr : List Json → Json
  | obj : List (List Nat × Json) → Json

/-- The four JSON whitespace characters. -/
def isJsonWs (c : Char) : Bool := c = ' ' || c = '\t' || c = '\n' || c = '\r'

/-- Drop leading JSON whitespace. -/
def skipWs : List Char → List Char
  | [] => []
  | c :: cs => if isJsonWs c then skipWs cs else c :: cs

/-- The value of a hexadecimal digit. -/
def hexVal (c : Char) : Option Nat :=
  if 48 ≤ c.toNat ∧ c.toNat ≤ 57 then some (c.toNat - 48)
  else if 97 ≤ c.toNat ∧ c.toNat ≤ 102 then some (c.toNat - 87)
  else if 65 ≤ c.toNat ∧ c.toNat ≤ 70 then some (c.toNat - 55)
  else none

/-- Parse the rest of a JSON string literal (the opening quote already
consumed), returning the decoded code units and the remaining input. -/
def parseStringBody (fuel : Nat) (l : List Char) : Option (List Nat × List Char) :=
  match fuel, l with
  | 0, _ => none
  | _, [] => none
  | fuel + 1, c :: cs =>
    if c = '"' then some ([], cs)
    else if c = '\\' then
      match cs with
      | [] => none
      | e :: cs2 =>
        if e = '"' then (parseStringBody fuel cs2).map (fun r => (34 :: r.1, r.2))
        else if e = '\\' then (parseStringBody fuel cs2).map (fun r => (92 :: r.1, r.2))
        else if e = '/' then (parseStringBody fuel cs2).map (fun r => (47 :: r.1, r.2))
        else if e = 'b' then (parseStringBody fuel cs2).map (fun r => (8 :: r.1, r.2))
        else if e = 'f' then (parseStringBody fuel cs2).map (fun r => (12 :: r.1, r.2))
        else if e = 'n' then (parseStringBody fuel cs2).map (fun r => (10 :: r.1, r.2))
        else if e = 'r' then (parseStringBody fuel cs2).map (fun r => (13 :: r.1, r.2))
        else if e = 't' then (parseStringBody fuel cs2).map (fun r => (9 :: r.1, r.2))
        else if e = 'u' then
          match cs2 with
          | h1 :: h2 :: h3 :: h4 :: cs3 =>
            match hexVal h1, hexVal h2, hexVal h3, hexVal h4 with
            | some v1, some v2, some v3, some v4 =>
                (parseStringBody fuel cs3).map
                  (fun r => ((((v1 * 16 + v2) * 16 + v3) * 16 + v4) :: r.1, r.2))
            | _, _, _, _ => none
          | _ => none
        else none
    else if c.toNat < 32 then none
    else (parseStringBody fuel cs).map (fun r => (c.toNat :: r.1, r.2))

/-- Take a maximal run of ASCII digits. -/
def takeDigits : List Char → (List Char × List Char)
  | [] => ([], [])
  | c :: cs =>
      if isDigitChar c then
        let r := takeDigits cs
        (c :: r.1, r.2)
      else ([], c :: cs)

/-- Parse an optional JSON exponent part onto the accumulated lexeme. -/
def parseExpPart (acc : List Char) (l : List Char) : Option (List Char × List Char) :=
  match l with
  | [] => some (acc, [])
  | c :: cs =>
    if c = 'e' ∨ c = 'E' then
      let sgnSplit : List Char × List Char :=
        match cs with
        | s :: rest => if s = '+' ∨ s = '-' then ([s], rest) else ([], s :: rest)
        | [] => ([], [])
      match takeDigits sgnSplit.2 with
      | ([], _) => none
      | (ds, rest) => some (acc ++ c :: (sgnSplit.1 ++ ds), rest)
    else some (acc, c :: cs)

/-- Parse an optional JSON fraction part, then the exponent. -/
def parseFracPart (acc : List Char) (l : List Char) : Option (List Char × List Char) :=
  match l with
  | '.' :: cs =>
    match takeDigits cs with
    | ([], _) => none
    | (ds, rest) => parseExpPart (acc ++ '.' :: ds) rest
  | _ => parseExpPart acc l

/-- Parse a JSON number lexeme: `-? (0 | [1-9][0-9]*) frac? exp?`. -/
def parseNumberLex (l : List Char) : Option (List Char × List Char) :=
  let negSplit : List Char × List Char :=
    match l with
    | '-' :: rest => (['-'], rest)
    | _ => ([], l)
  match negSplit.2 with
  | [] => none
  | c :: cs =>
    if c = '0' then parseFracPart (negSplit.1 ++ ['0']) cs
    else if isDigitChar c then
      let ds := takeDigits cs
      parseFracPart (negSplit.1 ++ c :: ds.1) ds.2
    else none

mutual

/-- Parse one JSON value (leading whitespace allowed); `fuel` bounds the
nesting and member recursion and is decremented at each recursive step. -/
def parseValue : Nat → List Char → Option (Json × List Char)
  | 0, _ => none
  | fuel + 1, l =>
    match skipWs l with
    | [] => none
    | c :: cs =>
      if c = 'n' then
        match cs with
        | 'u' :: 'l' :: 'l' :: rest => some (.null, rest)
        | _ => none
      else if c = 't' then
        match cs with
        | 'r' :: 'u' :: 'e' :: rest => some (.bool true, rest)
        | _ => none
      else if c = 'f' then
        match cs with
        | 'a' :: 'l' :: 's' :: 'e' :: rest => some (.bool false, rest)
        | _ => none
      else if c = '"' then
        (parseStringBody (cs.length + 1) cs).map (fun r => (.str r.1, r.2))
      else if c = '\x7b' then
        match skipWs cs with
        | '\x7d' :: rest => some (.obj [], rest)
        | l2 => (parseMembers fuel l2).map (fun r => (.obj r.1, r.2))
      else if c = '[' then
        match skipWs cs with
        | ']' :: rest => some (.arr [], rest)
        | l2 => (parseElements fuel l2).map (fun r => (.arr r.1, r.2))
      else if c = '-' ∨ isDigitChar c = true then
        (parseNumberLex (c :: cs)).map (fun r => (.num (String.mk r.1), r.2))
      else none

/-- Parse one or more `"key": value` members of an object (leading whitespace
already consumed), up to and including the closing brace. -/
def parseMembers : Nat → List Char → Option (List (List Nat × Json) × List Char)
  | 0, _ => none
  | fuel + 1, l =>
    match l with
    | '"' :: cs =>
      match parseStringBody (cs.length + 1) cs with
      | none => none
      | some (key, r1) =>
        match skipWs r1 with
        | ':' :: r2 =>
          match parseValue fuel r2 with
          | none => none
          | some (v, r3) =>
            match skipWs r3 with
            | ',' :: r4 =>
              match parseMembers fuel (skipWs r4) with
              | none => none
              | some (ms, r5) => some ((key, v) :: ms, r5)
            | '\x7d' :: r4 => some ([(key, v)], r4)
            | _ => none
        | _ => none
    | _ => none

/-- Parse one or more elements of an array, up to and including the closing
bracket. -/
def parseElements : Nat → List Char → Option (List Json × List Char)
  | 0, _ => none
  | fuel + 1, l =>
    match parseValue fuel l with
    | none => none
    | some (v, r1) =>
      match skipWs r1 with
      | ',' :: r2 =>
        match parseElements fuel r2 with
        | none => none
        | some (vs, r3) => some (v :: vs, r3)
      | ']' :: r2 => some ([v], r2)
      | _ => none

end

/-- Embedding of `JSON.parse`: parse one value, allow trailing whitespace,
demand that the
whole input is consumed. -/
def jsonParse (s : String) : Option Json :=
  match parseValue (s.length + 1) s.data with
  | some (v, rest) => if skipWs rest = [] then some v else none
  | none => none

/-! ## The gateway client (`PaynowClient`) -/

namespace PaynowClient

/-- The `environment` configuration union. -/
inductive Environment where
  | sandbox : Environment
  | production : Environment

/-- The constructor line resolving the environment: `config.environment`
when present, the sandbox default otherwise. -/
def resolveEnvironment (cfg : Option Environment) : Environment :=
  cfg.getD .sandbox

/-- The base-URL ternary of the constructor. -/
def baseURLFor : Environment → String
  | .production => "https://api.paynow.pl/v3"
  | .sandbox => "https://api.sandbox.paynow.pl/v3"

/-- The base URL the constructor resolves from the configuration. -/
def clientBaseURL (cfg : Option Environment) : String :=
  baseURLFor (resolveEnvironment cfg)

/-- The headers `createPayment` attaches to the outbound POST. -/
structure OutboundPaymentCall where
  signatureHeader : String
  idempotencyKeyHeader : String

/-- The signature-relevant core of `createPayment` in the variant calling the
three-argument `calculateSignature`: the freshly generated idempotency key
(`uuidv4()`) and the serialized request (`JSON.stringify(paymentRequest)`)
enter as inputs; the signature is computed over the header set
`{Api-Key, Idempotency-Key}`, no query parameters, and the serialized body. -/
def createPaymentCall (apiKey signatureKey idempotencyKey requestData : String) :
    OutboundPaymentCall :=
  let signatureHeaders := [("Api-Key", apiKey), ("Idempotency-Key", idempotencyKey)]
  { signatureHeader :=
      SignatureCalculator.calculateSignature signatureKey signatureHeaders [] requestData
    idempotencyKeyHeader := idempotencyKey }

/-- The response body of a 2xx `POST /payments`, as the fields the mapping
reads plus whatever else the provider sent. -/
structure PaymentResponseBody where
  paymentId : String
  redirectUrl : Option String
  status : String
  extraFields : List (String × String)

/-- The `PaymentResponse` value `createPayment` returns. -/
structure PaymentResponse where
  paymentId : String
  redirectUrl : Option String
  status : String

/-- The 2xx mapping of `createPayment`:
`{paymentId: response.data.paymentId, redirectUrl: response.data.redirectUrl,
status: response.data.status}`. -/
def mapCreatePaymentResponse (d : PaymentResponseBody) : PaymentResponse :=
  { paymentId := d.paymentId, redirectUrl := d.redirectUrl, status := d.status }

/-- Embedding of `verifyNotification`: delegate to the webhook verification
of the signature calculator. -/
def verifyNotification (signatureKey signature notificationData : String) : Bool :=
  SignatureCalculator.verifySignature signatureKey signature notificationData

/-- Embedding of `parseNotification`: apply `JSON.parse` to the body and
return the result as the (unchecked) notification value; a parse failure
becomes the error message *Invalid notification data format*. -/
def parseNotification (notificationData : String) : Except String Json :=
  match jsonParse notificationData with
  | some v => Except.ok v
  | none => Except.error "Invalid notification data format"

/-- Modelled from the spec: the typed notification shape requires the fields
`paymentId`, `externalId`, `status`, `modifiedAt`.  The source performs no
such check (it casts the parsed value); this predicate only serves to state
the claim about missing required fields. -/
def hasRequiredNotificationFields (j : Json) : Bool :=
  match j with
  | .obj members =>
      [strBytes "paymentId", strBytes "externalId", strBytes "status",
       strBytes "modifiedAt"].all
        (fun k => members.any (fun m => m.1 == k))
  | _ => false

/-- One entry of the structured error list of the provider. -/
structure ApiErrorEntry where
  field : Option String
  message : String

/-- The shape `handleError` inspects on a failed Axios call.  The optional
chain `response?.data?.errors` is flattened into one `Option`; likewise
`response?.status`. -/
structure AxiosErrorModel where
  isAxiosError : Bool
  responseErrors : Option (List ApiErrorEntry)
  responseStatus : Option Nat
  code : Option String
  message : String

/-- Rendering of one error entry: the field name and a colon when the field
is present and nonempty (an empty field string is falsy in JavaScript and
renders no prefix), followed by the message. -/
def renderFieldError (e : ApiErrorEntry) : String :=
  (match e.field with
   | some f => if f = "" then "" else f ++ ": "
   | none => "") ++ e.message

/-- The fall-through tail of `handleError` past the two response checks. -/
def handleErrorTail (e : AxiosErrorModel) : String :=
  if e.code = some "ECONNABORTED" then "Paynow API Error: Request timeout"
  else "Paynow API Error: " ++ e.message

/-- Embedding of `handleError`: structured field errors first, then the HTTP status (a
status of `0` is falsy in JavaScript and falls through), then the timeout
code, then the transport message; non-Axios errors become a generic message. -/
def handleError (e : AxiosErrorModel) : String :=
  if e.isAxiosError then
    match e.responseErrors with
    | some errs =>
        "Paynow API Error: " ++ String.intercalate ", " (errs.map renderFieldError)
    | none =>
      match e.responseStatus with
      | some s =>
          if s = 0 then handleErrorTail e
          else "Paynow API Error: HTTP " ++ Nat.repr s
      | none => handleErrorTail e
  else "Unexpected error occurred"

/-- The HTTP 400 response of the error scenario in the spec:
`{errors: [{field: "amount", message: "must be positive"}]}`. -/
def badRequest400 : AxiosErrorModel :=
  { isAxiosError := true
    responseErrors := some [{ field := some "amount", message := "must be positive" }]
    responseStatus := some 400
    code := none
    message := "Request failed with status code 400" }

end PaynowClient

/-! ## Order lemmas for the key comparison -/

theorem charToNat_inj {a b : Char} (h : a.toNat = b.toNat) : a = b :=
  Char.ext (UInt32.ext h)

theorem lexLtB_asymm : ∀ x y : List Nat, lexLtB x y = true → lexLtB y x = false := by
  intro x
  induction x with
  | nil =>
      intro y h
      cases y with
      | nil => simp [lexLtB] at h
      | cons b bs => simp [lexLtB]
  | cons a as ih =>
      intro y h
      cases y with
      | nil => simp [lexLtB] at h
      | cons b bs =>
        by_cases hab : a = b
        · subst hab
          simp only [lexLtB, if_pos rfl] at h ⊢
          exact ih bs h
        · have hba : ¬ b = a := fun e => hab e.symm
          simp only [lexLtB, if_neg hab, if_neg hba, decide_eq_true_eq] at h ⊢
          simp only [decide_eq_false_iff_not]
          omega

theorem lexLtB_eq_of_nlt_nlt :
    ∀ x y : List Nat, lexLtB x y = false → lexLtB y x = false → x = y := by
  intro x
  induction x with
  | nil =>
      intro y h1 _
      cases y with
      | nil => rfl
      | cons b bs => simp [lexLtB] at h1
  | cons a as ih =>
      intro y h1 h2
      cases y with
      | nil => simp [lexLtB] at h2
      | cons b bs =>
        by_cases hab : a = b
        · subst hab
          simp only [lexLtB, if_pos rfl] at h1 h2
          rw [ih bs h1 h2]
        · have hba : ¬ b = a := fun e => hab e.symm
          simp only [lexLtB, if_neg hab, if_neg hba, decide_eq_false_iff_not] at h1 h2
          exact absurd (by omega : a = b) hab

theorem lexLtB_trans :
    ∀ x y z : List Nat, lexLtB x y = true → lexLtB y z = true → lexLtB x z = true := by
  intro x
  induction x with
  | nil =>
      intro y z h1 h2
      cases z with
      | nil => cases y <;> simp [lexLtB] at h2
      | cons c cs => simp [lexLtB]
  | cons a as ih =>
      intro y z h1 h2
      cases y with
      | nil => simp [lexLtB] at h1
      | cons b bs =>
        cases z with
        | nil => simp [lexLtB] at h2
        | cons c cs =>
          by_cases hab : a = b
          · subst hab
            simp only [lexLtB, if_pos rfl] at h1
            by_cases hac : a = c
            · subst hac
              simp only [lexLtB, if_pos rfl] at h2 ⊢
              exact ih bs cs h1 h2
            · simp only [lexLtB, if_neg hac] at h2 ⊢
              exact h2
          · have h1' : a < b := by
              simpa only [lexLtB, if_neg hab, decide_eq_true_eq] using h1
            by_cases hbc : b = c
            · subst hbc
              simp only [lexLtB, if_neg hab, decide_eq_true_eq]
              exact h1'
            · have h2' : b < c := by
                simpa only [lexLtB, if_neg hbc, decide_eq_true_eq] using h2
              by_cases hac : a = c
              · subst hac; omega
              · simp only [lexLtB, if_neg hac, decide_eq_true_eq]
                omega

/-! ## Injectivity of the UTF-16 encoding

Needed for antisymmetry of the program key order.  A character is a valid
Unicode scalar value, so its code point is never a surrogate; a basic-plane
unit therefore never collides with a high surrogate, and surrogate pairs
decompose uniquely. -/

theorem char_valid_nat (c : Char) :
    c.toNat < 55296 ∨ (57343 < c.toNat ∧ c.toNat < 1114112) := c.valid

theorem utf16EncodeChar_ne_nil (c : Char) : utf16EncodeChar c ≠ [] := by
  unfold utf16EncodeChar
  split <;> simp

theorem utf16_flatten_inj : ∀ l1 l2 : List Char,
    (l1.map utf16EncodeChar).flatten = (l2.map utf16EncodeChar).flatten →
      l1 = l2 := by
  intro l1
  induction l1 with
  | nil =>
      intro l2 h
      cases l2 with
      | nil => rfl
      | cons c t =>
          rw [List.map_cons, List.flatten_cons] at h
          cases hc : utf16EncodeChar c with
          | nil => exact absurd hc (utf16EncodeChar_ne_nil c)
          | cons u us =>
              rw [hc] at h
              simp at h
  | cons c1 t1 ih =>
      intro l2 h
      cases l2 with
      | nil =>
          rw [List.map_cons, List.flatten_cons] at h
          cases hc : utf16EncodeChar c1 with
          | nil => exact absurd hc (utf16EncodeChar_ne_nil c1)
          | cons u us =>
              rw [hc] at h
              simp at h
      | cons c2 t2 =>
          rw [List.map_cons, List.flatten_cons, List.map_cons, List.flatten_cons] at h
          have v1 := char_valid_nat c1
          have v2 := char_valid_nat c2
          by_cases b1 : c1.toNat < 65536 <;> by_cases b2 : c2.toNat < 65536
          · simp only [utf16EncodeChar, if_pos b1, if_pos b2, List.cons_append,
              List.nil_append] at h
            injection h with hh ht
            rw [charToNat_inj hh, ih t2 ht]
          · simp only [utf16EncodeChar, if_pos b1, if_neg b2, List.cons_append,
              List.nil_append] at h
            rw [List.cons_eq_cons] at h
            have hh := h.1
            exfalso
            omega
          · simp only [utf16EncodeChar, if_neg b1, if_pos b2, List.cons_append,
              List.nil_append] at h
            rw [List.cons_eq_cons] at h
            have hh := h.1
            exfalso
            omega
          · simp only [utf16EncodeChar, if_neg b1, if_neg b2, List.cons_append] at h
            rw [List.cons_eq_cons] at h
            obtain ⟨hh, hrest⟩ := h
            rw [List.cons_eq_cons] at hrest
            obtain ⟨hl, ht⟩ := hrest
            have he : c1.toNat = c2.toNat := by omega
            rw [charToNat_inj he, ih t2 ht]

theorem keyLe_total (a b : String) : keyLe a b ∨ keyLe b a := by
  unfold keyLe strLeB strLtB
  by_cases h : lexLtB (utf16Units b) (utf16Units a) = true
  · right
    simp [lexLtB_asymm _ _ h]
  · left
    simp only [Bool.not_eq_true] at h
    simp [h]

theorem keyLe_trans {a b c : String} (h1 : keyLe a b) (h2 : keyLe b c) : keyLe a c := by
  unfold keyLe strLeB strLtB at h1 h2 ⊢
  simp only [Bool.not_eq_true'] at h1 h2 ⊢
  by_contra hca
  simp only [Bool.not_eq_false] at hca
  by_cases hbc : lexLtB (utf16Units b) (utf16Units c) = true
  · have hba := lexLtB_trans _ _ _ hbc hca
    rw [hba] at h1
    cases h1
  · have hb : utf16Units b = utf16Units c :=
      lexLtB_eq_of_nlt_nlt _ _ (Bool.not_eq_true _ ▸ by simpa using hbc) h2
    rw [← hb] at hca
    rw [hca] at h1
    cases h1

theorem keyLe_antisymm {a b : String} (h1 : keyLe a b) (h2 : keyLe b a) : a = b := by
  unfold keyLe strLeB strLtB at h1 h2
  simp only [Bool.not_eq_true'] at h1 h2
  have hu : utf16Units a = utf16Units b := lexLtB_eq_of_nlt_nlt _ _ h2 h1
  exact String.ext (utf16_flatten_inj a.data b.data hu)

/-! ## Sorting and lookup lemmas -/

theorem sortStrings_perm (ks : List String) : (sortStrings ks).Perm ks :=
  List.perm_insertionSort keyLe ks

theorem sortStrings_sorted (ks : List String) : List.Sorted keyLe (sortStrings ks) := by
  haveI : IsTotal String keyLe := ⟨keyLe_total⟩
  haveI : IsTrans String keyLe := ⟨fun _ _ _ => keyLe_trans⟩
  exact List.sorted_insertionSort keyLe ks

theorem sortStrings_eq_of_perm {ks1 ks2 : List String} (h : ks1.Perm ks2) :
    sortStrings ks1 = sortStrings ks2 := by
  haveI : IsAntisymm String keyLe := ⟨fun _ _ => keyLe_antisymm⟩
  exact List.eq_of_perm_of_sorted
    (((sortStrings_perm ks1).trans h).trans (sortStrings_perm ks2).symm)
    (sortStrings_sorted ks1) (sortStrings_sorted ks2)

theorem lookup_eq_of_perm (k : String) :
    ∀ {l1 l2 : List (String × String)}, l1.Perm l2 →
      (l1.map Prod.fst).Nodup → List.lookup k l1 = List.lookup k l2 := by
  intro l1 l2 h
  induction h with
  | nil => intro _; rfl
  | cons x h ih =>
      intro nd
      rw [List.lookup_cons, List.lookup_cons]
      cases hk : k == x.1
      · simp only []
        exact ih ((List.nodup_cons.mp (by simpa using nd)).2)
      · rfl
  | swap x y t =>
      intro nd
      have hxy : y.1 ≠ x.1 := by
        simp only [List.map_cons, List.nodup_cons, List.mem_cons] at nd
        exact fun e => nd.1 (Or.inl e)
      rw [List.lookup_cons, List.lookup_cons, List.lookup_cons, List.lookup_cons]
      cases h1 : k == y.1 <;> cases h2 : k == x.1 <;> simp only []
      exact absurd (eq_of_beq h1 ▸ eq_of_beq h2) hxy
  | trans h1 h2 ih1 ih2 =>
      intro nd
      have nd2 : _ := (List.Perm.nodup_iff (h1.map Prod.fst)).mp nd
      exact (ih1 nd).trans (ih2 nd2)

theorem sortedPairs_eq_of_perm {H1 H2 : List (String × String)}
    (h : H1.Perm H2) (nd : (H1.map Prod.fst).Nodup) :
    sortedPairs H1 = sortedPairs H2 := by
  unfold sortedPairs
  rw [← sortStrings_eq_of_perm (h.map Prod.fst)]
  apply List.map_congr_left
  intro k _
  rw [lookupD, lookupD, lookup_eq_of_perm k h nd]

theorem lookup_map_self (f : String → String) :
    ∀ (ks : List String) (k : String), k ∈ ks →
      List.lookup k (ks.map (fun x => (x, f x))) = some (f k) := by
  intro ks
  induction ks with
  | nil => intro k hk; cases hk
  | cons a as ih =>
      intro k hk
      rw [List.map_cons, List.lookup_cons]
      by_cases hka : k = a
      · subst hka; simp
      · have hb : (k == a) = false := by simp [hka]
        simp only [hb]
        exact ih k (by
          cases List.mem_cons.mp hk with
          | inl h => exact absurd h hka
          | inr h => exact h)

/-! ## The serialization bridge: own-property order vs sorted order -/

theorem jsOwnKeyOrder_id {ks : List String}
    (h : ∀ k ∈ ks, isArrayIndexKey k = false) : jsOwnKeyOrder ks = ks := by
  unfold jsOwnKeyOrder
  have h1 : ks.filter isArrayIndexKey = [] :=
    List.filter_eq_nil_iff.mpr (by intro a ha; simp [h a ha])
  have h2 : ks.filter (fun k => !isArrayIndexKey k) = ks :=
    List.filter_eq_self.mpr (by intro a ha; simp [h a ha])
  rw [h1, h2]
  rfl

theorem sortedPairs_keys (H : List (String × String)) :
    (sortedPairs H).map Prod.fst = sortStrings (H.map Prod.fst) := by
  unfold sortedPairs
  rw [List.map_map]
  exact List.map_id _

theorem stringifyRecord_of_no_array_index {H : List (String × String)}
    (h : ∀ k ∈ H.map Prod.fst, isArrayIndexKey k = false) :
    stringifyRecord (sortedPairs H) = stringifyStrEntries (sortedPairs H) := by
  unfold stringifyRecord
  rw [sortedPairs_keys]
  have hmem : ∀ k ∈ sortStrings (H.map Prod.fst), isArrayIndexKey k = false := by
    intro k hk
    exact h k ((sortStrings_perm _).mem_iff.mp hk)
  rw [jsOwnKeyOrder_id hmem]
  congr 1
  apply List.map_congr_left
  intro k hk
  have hl : List.lookup k (sortedPairs H) = some (lookupD H k) :=
    lookup_map_self (lookupD H) _ k hk
  show (k, lookupD (sortedPairs H) k) = (k, lookupD H k)
  rw [lookupD, hl]
  rfl

/-! ## The order bridge: UTF-16 unit order vs byte order

Sorting under two relations gives the same list when the relations agree on
the elements sorted; the program order (UTF-16 code units) and the spec
order (bytes, i.e. code points) agree on keys of basic-plane characters. -/

theorem orderedInsert_congr {α : Type _} {r1 r2 : α → α → Prop}
    [DecidableRel r1] [DecidableRel r2] (a : α) :
    ∀ l : List α, (∀ y ∈ l, (r1 a y ↔ r2 a y)) →
      List.orderedInsert r1 a l = List.orderedInsert r2 a l := by
  intro l
  induction l with
  | nil => intro _; rfl
  | cons b t ih =>
      intro h
      simp only [List.orderedInsert]
      by_cases hr : r1 a b
      · rw [if_pos hr, if_pos ((h b (List.mem_cons_self b t)).mp hr)]
      · rw [if_neg hr, if_neg (fun h2 => hr ((h b (List.mem_cons_self b t)).mpr h2)),
          ih (fun y hy => h y (List.mem_cons_of_mem b hy))]

theorem insertionSort_congr {α : Type _} {r1 r2 : α → α → Prop}
    [DecidableRel r1] [DecidableRel r2] :
    ∀ l : List α, (∀ x ∈ l, ∀ y ∈ l, (r1 x y ↔ r2 x y)) →
      List.insertionSort r1 l = List.insertionSort r2 l := by
  intro l
  induction l with
  | nil => intro _; rfl
  | cons a t ih =>
      intro h
      simp only [List.insertionSort]
      rw [ih (fun x hx y hy => h x (List.mem_cons_of_mem a hx) y (List.mem_cons_of_mem a hy))]
      apply orderedInsert_congr
      intro y hy
      have hyt : y ∈ t := (List.perm_insertionSort r2 t).mem_iff.mp hy
      exact h a (List.mem_cons_self a t) y (List.mem_cons_of_mem a hyt)

theorem utf16_map_eq_cp : ∀ l : List Char, (∀ c ∈ l, c.toNat < 65536) →
    (l.map utf16EncodeChar).flatten = l.map Char.toNat := by
  intro l
  induction l with
  | nil => intro _; rfl
  | cons c t ih =>
      intro h
      have hc : utf16EncodeChar c = [c.toNat] := by
        unfold utf16EncodeChar
        rw [if_pos (h c (List.mem_cons_self c t))]
      rw [List.map_cons, List.flatten_cons, hc, List.map_cons,
        ih (fun x hx => h x (List.mem_cons_of_mem c hx))]
      rfl

theorem utf16Units_eq_cpUnits {s : String} (h : bmpOnly s = true) :
    utf16Units s = cpUnits s := by
  unfold bmpOnly at h
  unfold utf16Units cpUnits
  apply utf16_map_eq_cp
  intro c hc
  simpa using List.all_eq_true.mp h c hc

theorem keyLe_iff_specKeyLe {a b : String}
    (ha : bmpOnly a = true) (hb : bmpOnly b = true) : keyLe a b ↔ specKeyLe a b := by
  unfold keyLe specKeyLe strLeB strLtB
  rw [utf16Units_eq_cpUnits ha, utf16Units_eq_cpUnits hb]

theorem sortStrings_eq_specSort {ks : List String}
    (h : ∀ k ∈ ks, bmpOnly k = true) : sortStrings ks = specSortStrings ks := by
  unfold sortStrings specSortStrings
  exact insertionSort_congr ks (fun x hx y hy => keyLe_iff_specKeyLe (h x hx) (h y hy))

theorem sortedPairs_eq_specSortedPairs {H : List (String × String)}
    (h : ∀ k ∈ H.map Prod.fst, bmpOnly k = true) :
    sortedPairs H = specSortedPairs H := by
  unfold sortedPairs specSortedPairs
  rw [sortStrings_eq_specSort h]

theorem calculateSignature_spec_of_plain_keys (key : String)
    (H P : List (String × String)) (B : String)
    (hHa : ∀ k ∈ H.map Prod.fst, isArrayIndexKey k = false)
    (hHb : ∀ k ∈ H.map Prod.fst, bmpOnly k = true)
    (hPa : ∀ k ∈ P.map Prod.fst, isArrayIndexKey k = false)
    (hPb : ∀ k ∈ P.map Prod.fst, bmpOnly k = true) :
    SignatureCalculator.calculateSignature key H P B = specApiSignature key H P B := by
  unfold SignatureCalculator.calculateSignature specApiSignature
  unfold SignatureCalculator.payloadString specCanonicalPayload
  rw [stringifyRecord_of_no_array_index hHa, stringifyRecord_of_no_array_index hPa,
    sortedPairs_eq_specSortedPairs hHb, sortedPairs_eq_specSortedPairs hPb]

/-! ## The claims -/

/-- C1, counterexample.  The claim asserts that, for *every* headers map, the
signature is the Base64 HMAC of the serialization whose key order is exactly
the sorted lexicographic byte order.  It fails on two key families.  First,
when a key is a canonical array-index string, `JSON.stringify` enumerates it
in ascending *numeric* order, so for the headers `{"10": "a", "9": "b"}` the
payload of the code is `{"headers":{"9":"b","10":"a"},...}` while the
lexicographic payload of the claim is `{"headers":{"10":"a","9":"b"},...}`.
Second, the JavaScript sort compares UTF-16 code units, not bytes: for the
keys U+10000 and U+E000 the program sorts U+10000 first (its high surrogate
55296 is below the unit 57344) while byte order sorts U+E000 first.  In both
cases the signatures differ. -/
theorem c1_key_order_counterexample :
    (SignatureCalculator.calculateSignature "key" [("10", "a"), ("9", "b")] [] "" ≠
      specApiSignature "key" [("10", "a"), ("9", "b")] [] "") ∧
    (SignatureCalculator.calculateSignature "key"
        [(astralKey, "a"), (privateUseKey, "b")] [] "" ≠
      specApiSignature "key" [(astralKey, "a"), (privateUseKey, "b")] [] "") := by
  constructor
  · decide
  · decide

/-- C1 (amended): for every signature key, headers map, query-parameters map,
and body string such that no header key and no parameter key is a canonical
array-index string or contains an astral-plane character (in particular, for
every real HTTP header set), `calculateSignature` sorts the keys
lexicographically by case-sensitive byte order, builds the JSON object
`{headers: sortedHeaders, parameters: sortedParameters, body: body}` with
exactly that key order and no extra whitespace, computes HMAC-SHA256 over the
UTF-8 bytes of that serialization with the signature key, and returns the
Base64 encoding of the digest; empty maps are covered and the signature is a
deterministic function of the inputs.  (Outside that key domain the code
orders keys by ascending numeric value respectively by UTF-16 code units —
see the counterexample.) -/
theorem c1_calculateSignature_canonical_amended (key : String)
    (H P : List (String × String)) (B : String)
    (hH : (H.map Prod.fst).all (fun k => !isArrayIndexKey k && bmpOnly k) = true)
    (hP : (P.map Prod.fst).all (fun k => !isArrayIndexKey k && bmpOnly k) = true) :
    SignatureCalculator.calculateSignature key H P B = specApiSignature key H P B := by
  apply calculateSignature_spec_of_plain_keys
  · intro k hk
    have hx := List.all_eq_true.mp hH k hk
    simp only [Bool.and_eq_true, Bool.not_eq_true'] at hx
    exact hx.1
  · intro k hk
    have hx := List.all_eq_true.mp hH k hk
    simp only [Bool.and_eq_true, Bool.not_eq_true'] at hx
    exact hx.2
  · intro k hk
    have hx := List.all_eq_true.mp hP k hk
    simp only [Bool.and_eq_true, Bool.not_eq_true'] at hx
    exact hx.1
  · intro k hk
    have hx := List.all_eq_true.mp hP k hk
    simp only [Bool.and_eq_true, Bool.not_eq_true'] at hx
    exact hx.2

/-- C1, witness: the amended theorem applied to a concrete header set of the
shape `createPayment` uses, with both hypotheses discharged by evaluation. -/
theorem c1_calculateSignature_canonical_witness :
    SignatureCalculator.calculateSignature "test-signature-key"
        [("Api-Key", "api-key"), ("Idempotency-Key", "11111111-2222-3333-4444-555555555555")]
        [] "\x7b\"amount\":1000\x7d" =
      specApiSignature "test-signature-key"
        [("Api-Key", "api-key"), ("Idempotency-Key", "11111111-2222-3333-4444-555555555555")]
        [] "\x7b\"amount\":1000\x7d" :=
  c1_calculateSignature_canonical_amended "test-signature-key" _ _ _ (by decide) (by decide)

/-- C2: for every signature key and body string `B`, verifying the webhook
signature of `B` against the signature just computed for `B` under the same
key returns `true`; and the computed webhook signature is the Base64-encoded
HMAC-SHA256 of the UTF-8 bytes of `B` alone, with no wrapping structure. -/
theorem c2_webhook_signature_roundtrip (key B : String) :
    SignatureCalculator.verifySignature key
        (SignatureCalculator.calculateSignatureSimple key B) B = true ∧
    SignatureCalculator.calculateSignatureSimple key B =
      base64Encode (hmacSha256 (strBytes key) (strBytes B)) :=
  ⟨by simp [SignatureCalculator.verifySignature], rfl⟩

/-- C3: for every signature key, received signature `S`, and body `B`,
verification returns `false` exactly when `S` differs, as a string, from the
recomputed webhook signature of `B`; the comparison performed is exact string
equality of the recomputed signature against `S`. -/
theorem c3_verifySignature_exact_equality (key S B : String) :
    (SignatureCalculator.verifySignature key S B = false ↔
      S ≠ SignatureCalculator.calculateSignatureSimple key B) ∧
    SignatureCalculator.verifySignature key S B =
      (SignatureCalculator.calculateSignatureSimple key B == S) := by
  constructor
  · unfold SignatureCalculator.verifySignature
    constructor
    · intro h he
      rw [he] at h
      simp at h
    · intro h
      exact beq_eq_false_iff_ne.mpr (fun e => h e.symm)
  · rfl

/-- C4: the API signature is order-independent — permuting the entries of the
headers map (and of the parameters map), with keys unique as they are in a
JavaScript object, does not change the computed signature. -/
theorem c4_calculateSignature_order_independent (key : String)
    (H1 H2 P1 P2 : List (String × String)) (B : String)
    (hH : H1.Perm H2) (hHnd : (H1.map Prod.fst).Nodup)
    (hP : P1.Perm P2) (hPnd : (P1.map Prod.fst).Nodup) :
    SignatureCalculator.calculateSignature key H1 P1 B =
      SignatureCalculator.calculateSignature key H2 P2 B := by
  unfold SignatureCalculator.calculateSignature
  rw [sortedPairs_eq_of_perm hH hHnd, sortedPairs_eq_of_perm hP hPnd]

/-- C4, witness: the order-independence theorem applied to concrete permuted
header and parameter maps. -/
theorem c4_order_independent_witness :
    SignatureCalculator.calculateSignature "k"
        [("b", "2"), ("a", "1")] [("y", "3"), ("x", "4")] "B" =
      SignatureCalculator.calculateSignature "k"
        [("a", "1"), ("b", "2")] [("x", "4"), ("y", "3")] "B" :=
  c4_calculateSignature_order_independent "k" _ _ _ _ "B"
    (by decide) (by decide) (by decide) (by decide)

/-- C5: in the `createPayment` variant calling the three-argument
`calculateSignature`, the attached signature is computed over exactly the
header set `{Api-Key, Idempotency-Key}`, an empty query-parameter map, and
the serialized body — and (those keys being no array indices) it equals the
canonical three-argument scheme of the spec; the generated idempotency key is
attached unchanged as the `Idempotency-Key` header. -/
theorem c5_createPayment_three_arg_scheme (apiKey signatureKey idem body : String) :
    (PaynowClient.createPaymentCall apiKey signatureKey idem body).signatureHeader =
      SignatureCalculator.calculateSignature signatureKey
        [("Api-Key", apiKey), ("Idempotency-Key", idem)] [] body ∧
    (PaynowClient.createPaymentCall apiKey signatureKey idem body).signatureHeader =
      specApiSignature signatureKey
        [("Api-Key", apiKey), ("Idempotency-Key", idem)] [] body ∧
    (PaynowClient.createPaymentCall apiKey signatureKey idem body).idempotencyKeyHeader =
      idem := by
  have h1a : ∀ k ∈ ([("Api-Key", apiKey), ("Idempotency-Key", idem)].map Prod.fst),
      isArrayIndexKey k = false := by
    intro k hk
    simp only [List.map_cons, List.map_nil] at hk
    rcases List.mem_cons.mp hk with rfl | hk2
    · rfl
    · rcases List.mem_cons.mp hk2 with rfl | hk3
      · rfl
      · cases hk3
  have h1b : ∀ k ∈ ([("Api-Key", apiKey), ("Idempotency-Key", idem)].map Prod.fst),
      bmpOnly k = true := by
    intro k hk
    simp only [List.map_cons, List.map_nil] at hk
    rcases List.mem_cons.mp hk with rfl | hk2
    · rfl
    · rcases List.mem_cons.mp hk2 with rfl | hk3
      · rfl
      · cases hk3
  have h2a : ∀ k ∈ (([] : List (String × String)).map Prod.fst),
      isArrayIndexKey k = false := by
    intro k hk
    simp at hk
  have h2b : ∀ k ∈ (([] : List (String × String)).map Prod.fst),
      bmpOnly k = true := by
    intro k hk
    simp at hk
  exact ⟨rfl,
    calculateSignature_spec_of_plain_keys signatureKey _ _ body h1a h1b h2a h2b, rfl⟩

/-- C6: `handleError` assembles the error message with this priority: the
structured field-level error list of the provider when present (each entry
rendered as `field: message`), otherwise the HTTP status code, otherwise the
timeout indicator; and on the HTTP 400 response carrying
`{errors: [{field: "amount", message: "must be positive"}]}` the resulting
message contains the substring `"amount: must be positive"`. -/
theorem c6_handleError_message_priority :
    (∀ e : PaynowClient.AxiosErrorModel, ∀ errs, e.isAxiosError = true →
        e.responseErrors = some errs →
        PaynowClient.handleError e =
          "Paynow API Error: " ++
            String.intercalate ", " (errs.map PaynowClient.renderFieldError)) ∧
    (∀ e : PaynowClient.AxiosErrorModel, ∀ s, e.isAxiosError = true →
        e.responseErrors = none → e.responseStatus = some s → s ≠ 0 →
        PaynowClient.handleError e = "Paynow API Error: HTTP " ++ Nat.repr s) ∧
    (∀ e : PaynowClient.AxiosErrorModel, e.isAxiosError = true →
        e.responseErrors = none → e.responseStatus = none →
        e.code = some "ECONNABORTED" →
        PaynowClient.handleError e = "Paynow API Error: Request timeout") ∧
    (∃ p q, PaynowClient.handleError PaynowClient.badRequest400 =
        p ++ "amount: must be positive" ++ q) := by
  refine ⟨?_, ?_, ?_, "Paynow API Error: ", "", by decide⟩
  · intro e errs h1 h2
    simp [PaynowClient.handleError, h1, h2]
  · intro e s h1 h2 h3 h4
    simp [PaynowClient.handleError, h1, h2, h3, h4]
  · intro e h1 h2 h3 h4
    simp [PaynowClient.handleError, PaynowClient.handleErrorTail, h1, h2, h3, h4]

/-- C6, witness: the field-error branch of the priority theorem applied to
the concrete HTTP 400 response of the scenario in the spec. -/
theorem c6_handleError_witness :
    PaynowClient.handleError PaynowClient.badRequest400 =
      "Paynow API Error: " ++
        String.intercalate ", "
          ([{ field := some "amount", message := "must be positive" }].map
            PaynowClient.renderFieldError) :=
  c6_handleError_message_priority.1 PaynowClient.badRequest400
    [{ field := some "amount", message := "must be positive" }] rfl rfl

/-- C7, counterexample.  The claim asserts that `parseNotification` fails when
the parsed value is missing required notification fields; but the source only
`JSON.parse`s and casts, so the field-free input `"{}"` parses successfully
even though every required field is absent. -/
theorem c7_missing_fields_counterexample :
    PaynowClient.parseNotification "\x7b\x7d" = Except.ok (Json.obj []) ∧
    PaynowClient.hasRequiredNotificationFields (Json.obj []) = false :=
  ⟨rfl, rfl⟩

/-- C7 (amended): `parseNotification` fails with the malformed-notification
error exactly when the input is not valid JSON; missing required fields are
not detected (the parsed value is returned as an unchecked cast); in
particular `parseNotification "not json"` fails with that error. -/
theorem c7_parseNotification_invalid_json_amended :
    (∀ s, PaynowClient.parseNotification s =
        Except.error "Invalid notification data format" ↔ jsonParse s = none) ∧
    PaynowClient.parseNotification "not json" =
      Except.error "Invalid notification data format" := by
  constructor
  · intro s
    unfold PaynowClient.parseNotification
    cases h : jsonParse s with
    | some v => simp
    | none => simp
  · rfl

/-- C8: the client constructor resolves the base endpoint purely from the
configured environment — `production` yields the production URL, `sandbox`
the sandbox URL, and an omitted environment defaults to sandbox. -/
theorem c8_clientBaseURL_resolution :
    PaynowClient.clientBaseURL (some .production) = "https://api.paynow.pl/v3" ∧
    PaynowClient.clientBaseURL (some .sandbox) = "https://api.sandbox.paynow.pl/v3" ∧
    PaynowClient.clientBaseURL none = "https://api.sandbox.paynow.pl/v3" :=
  ⟨rfl, rfl, rfl⟩

/-- C9: `verifyNotification` is a total boolean function — on every input it
returns `true` or `false`, a signature mismatch is reported only as the
return value `false` (never as a thrown error), and it delegates to the
webhook verification of the signature calculator. -/
theorem c9_verifyNotification_boolean (signatureKey sig body : String) :
    (PaynowClient.verifyNotification signatureKey sig body = false ∨
      PaynowClient.verifyNotification signatureKey sig body = true) ∧
    (PaynowClient.verifyNotification signatureKey sig body = false ↔
      sig ≠ SignatureCalculator.calculateSignatureSimple signatureKey body) ∧
    PaynowClient.verifyNotification signatureKey sig body =
      SignatureCalculator.verifySignature signatureKey sig body := by
  refine ⟨?_, ?_, rfl⟩
  · cases hb : PaynowClient.verifyNotification signatureKey sig body
    · exact Or.inl rfl
    · exact Or.inr rfl
  · unfold PaynowClient.verifyNotification SignatureCalculator.verifySignature
    constructor
    · intro h he
      rw [he] at h
      simp at h
    · intro h
      exact beq_eq_false_iff_ne.mpr (fun e => h e.symm)

/-- C10: for a 2xx `createPayment` response, the returned `PaymentResponse`
is exactly the projection of the response body onto `paymentId`,
`redirectUrl`, and `status`: those three are copied through unchanged, and
bodies differing only in other fields map to the same response. -/
theorem c10_createPayment_response_projection :
    (∀ d : PaynowClient.PaymentResponseBody,
        (PaynowClient.mapCreatePaymentResponse d).paymentId = d.paymentId ∧
        (PaynowClient.mapCreatePaymentResponse d).redirectUrl = d.redirectUrl ∧
        (PaynowClient.mapCreatePaymentResponse d).status = d.status) ∧
    (∀ d1 d2 : PaynowClient.PaymentResponseBody,
        d1.paymentId = d2.paymentId → d1.redirectUrl = d2.redirectUrl →
        d1.status = d2.status →
        PaynowClient.mapCreatePaymentResponse d1 =
          PaynowClient.mapCreatePaymentResponse d2) := by
  constructor
  · intro d
    exact ⟨rfl, rfl, rfl⟩
  · intro d1 d2 h1 h2 h3
    unfold PaynowClient.mapCreatePaymentResponse
    rw [h1, h2, h3]

/-- C10, witness: two response bodies agreeing on the three projected fields
but differing in an extra field map to the same `PaymentResponse`. -/
theorem c10_response_projection_witness :
    PaynowClient.mapCreatePaymentResponse
        { paymentId := "P1", redirectUrl := some "https://paynow.example/redirect",
          status := "NEW", extraFields := [("unexpected", "dropped")] } =
      PaynowClient.mapCreatePaymentResponse
        { paymentId := "P1", redirectUrl := some "https://paynow.example/redirect",
          status := "NEW", extraFields := [] } :=
  c10_createPayment_response_projection.2 _ _ rfl rfl rfl

end Paynow
